import Mathlib

/-!
# sylar::Fiber — a shallow embedding of `src/fiber/fiber.cpp`

The thread-local registry (`t_fiber`, `t_thread_fiber`, `t_scheduler_fiber`), the
process-wide counters (`s_fiber_count`, `s_fiber_id`) and the fiber objects are
explicit state.  Fiber objects live in an arena: a `Fiber*` is an arena address
(`none` is `nullptr`), a destroyed object leaves an empty slot, so a dangling
pointer is detected when it is dereferenced.

A `ucontext_t` is modelled by what it stands for: the code that runs when the
context is entered.  `swapcontext(&a, &b)` stores the caller's remaining code in
`a` and continues with the code held by `b`.  A saved context can be entered
once: it points into the frame of the `resume()` or `yield()` that saved it, and
that frame returns as soon as the context is entered.  A context made by
`makecontext` runs `MainFunc` on the fiber's own stack, which has to be large
enough for it.  The code of one thread is a list of calls on the fiber interface
(`Instr`); the body of an entry callable is looked up in the environment.

Conventions.
* `uint64_t` counters are natural numbers reduced modulo `2 ^ 64`.
* `assert` is active (the source does not define `NDEBUG`); a failed assertion,
  a null or dangling dereference and the other fatal conditions end the run with
  a `Fault` together with the state in which it happened.
* `getcontext` and `swapcontext` are taken to succeed (return `0`); their
  failure branches only print and call `pthread_exit`.
* Ownership through `shared_ptr` is not counted: the destruction of a fiber is
  an explicit event (`Instr.deleteFiber`), and fresh storage is the next arena
  slot.
-/

namespace sylar

/-- Fiber::State of fiber.h. -/
inductive State where
  | READY
  | RUNNING
  | TERM
  deriving DecidableEq, Repr

/-- A `Fiber*`: an arena address, `none` for `nullptr`. -/
abbrev FiberPtr := Option Nat

/-- A `std::function<void()>`: `none` is the empty callable (`nullptr`),
`some c` is the callable whose body is `Env.code c`. -/
abbrev Callable := Option Nat

/-- One call on the fiber interface, as it appears in the code of a thread or of
an entry callable.  Fibers are named by their arena address. -/
inductive Instr where
  /-- The call `Fiber::GetThis();`, its result discarded. -/
  | getThis
  /-- The call `Fiber::SetSchedulerFiber(f);`. -/
  | setSchedulerFiber (f : FiberPtr)
  /-- The expression `new Fiber(cb, stacksize, run_in_scheduler)`, held by a `shared_ptr`. -/
  | newFiber (cb : Callable) (stacksize : Nat) (run_in_scheduler : Bool)
  /-- The last `shared_ptr` to the fiber at `p` is released: `~Fiber()` runs. -/
  | deleteFiber (p : Nat)
  /-- The call `p->reset(cb);`. -/
  | reset (p : Nat) (cb : Callable)
  /-- The call `p->resume();`. -/
  | resume (p : Nat)
  /-- The call `p->yield();`. -/
  | yield (p : Nat)
  /-- The call `Fiber::GetThis()->yield();`. -/
  | yieldThis
  /-- The call `Fiber::MainFunc();` up to and including the call `curr->m_cb()`. -/
  | mainFunc
  /-- The rest of `Fiber::MainFunc` after `curr->m_cb()` has returned. -/
  | mainFuncTail (curr : Nat)
  deriving DecidableEq, Repr

/-- The content of a `ucontext_t m_ctx`. -/
inductive Ctx where
  /-- Filled by `getcontext` inside a constructor and never saved again: it
  points into a frame that has returned -/
  | captured
  /-- Prepared by `makecontext(&m_ctx, &Fiber::MainFunc, 0)` with `uc_stack.ss_sp = ss_sp`
  and `uc_stack.ss_size = ss_size` -/
  | made (ss_sp ss_size : Nat)
  /-- Saved by `swapcontext`: entering it continues with the code `k` -/
  | saved (k : List Instr)
  /-- Saved by `swapcontext` and entered since: the `resume()` or `yield()` that saved it
  has returned, so the context points into a frame that is gone -/
  | consumed
  deriving DecidableEq, Repr

/-- The data members of `class Fiber` (the mutex is not used by fiber.cpp). -/
structure Fiber where
  m_id : Nat
  m_stacksize : Nat
  m_state : State
  m_ctx : Ctx
  /-- The member `void* m_stack`; `0` is `nullptr`. -/
  m_stack : Nat
  m_cb : Callable
  m_runInScheduler : Bool
  deriving DecidableEq, Repr

/-- What the program text does not fix: the bodies of the entry callables, the
results of `malloc`, and the indeterminate values of the two members that
`Fiber::Fiber()` leaves uninitialised. -/
structure Env where
  /-- Body of the callable `c`. -/
  code : Nat → List Instr
  /-- Result of `malloc(size)` called while constructing the fiber at arena address `a`;
  `0` is a failed allocation -/
  malloc : Nat → Nat → Nat
  /-- Value of `m_stacksize` in a main fiber built at arena address `a` -/
  rawStacksize : Nat → Nat
  /-- Value of `m_runInScheduler` in a main fiber built at arena address `a` -/
  rawRunInScheduler : Nat → Bool
  /-- Stack, in bytes, that `MainFunc` needs to run the entry callable `cb` -/
  stackNeed : Callable → Nat

/-- The state of one thread together with the process-wide counters. -/
structure Machine where
  /-- Source: `static thread_local Fiber* t_fiber`. -/
  t_fiber : FiberPtr
  /-- Source: `static thread_local std::shared_ptr<Fiber> t_thread_fiber`. -/
  t_thread_fiber : FiberPtr
  /-- Source: `static thread_local Fiber* t_scheduler_fiber`. -/
  t_scheduler_fiber : FiberPtr
  /-- Source: `static std::atomic<uint64_t> s_fiber_count`. -/
  s_fiber_count : Nat
  /-- Source: `static std::atomic<uint64_t> s_fiber_id`. -/
  s_fiber_id : Nat
  /-- The fiber objects; a destroyed object leaves `none`. -/
  heap : List (Option Fiber)
  /-- The code the thread still has to run in the current context. -/
  pc : List Instr
  deriving DecidableEq, Repr

/-- The fatal conditions a call can end in. -/
inductive Fault where
  /-- A failed `assert`. -/
  | assertion
  /-- A null counterpart pointer handed to `swapcontext`. -/
  | nullDeref
  /-- A pointer to no live fiber object is dereferenced. -/
  | badPointer
  /-- A context is entered whose frame has returned (captured by a constructor, or saved
  and already entered once): undefined behaviour, the embedding stops there. -/
  | staleContext
  /-- A context is made on a null stack: `makecontext` writes through `ss_sp`. -/
  | nullStack
  /-- A context is entered whose stack is too small for `MainFunc` and the entry. -/
  | stackOverflow
  /-- An empty `std::function` is called. -/
  | badFunctionCall
  deriving DecidableEq, Repr

/-- A call either returns the new state or stops with a fault in a state. -/
abbrev Exec := Except (Fault × Machine) Machine

/-- Modulus of `uint64_t`. -/
def UINT64 : Nat := 2 ^ 64

/-- A process and thread at start-up: no fiber, null registry, counters `{0}`,
running the code `main`. -/
def boot (main : List Instr) : Machine :=
  { t_fiber := none, t_thread_fiber := none, t_scheduler_fiber := none,
    s_fiber_count := 0, s_fiber_id := 0, heap := [], pc := main }

/-- The live fiber object at address `a`, if any. -/
def Machine.fiber? (m : Machine) (a : Nat) : Option Fiber :=
  match m.heap[a]? with
  | some (some f) => some f
  | _ => none

/-- Overwrite the object at address `a`. -/
def Machine.setFiber (m : Machine) (a : Nat) (f : Fiber) : Machine :=
  { m with heap := m.heap.set a (some f) }

/-- The state a run ended in, normally or not. -/
def Exec.final : Exec → Machine
  | .ok m => m
  | .error e => e.2

/-- Fiber::SetThis. -/
def Fiber.SetThis (f : FiberPtr) (m : Machine) : Machine :=
  { m with t_fiber := f }

/-- Fiber::SetSchedulerFiber. -/
def Fiber.SetSchedulerFiber (f : FiberPtr) (m : Machine) : Machine :=
  { m with t_scheduler_fiber := f }

/-- Fiber::Fiber(): the main fiber of a thread, built in fresh storage.
`m_stack` and `m_cb` take their default initialisers, `m_stacksize` and
`m_runInScheduler` are not written. -/
def Fiber.ctorMain (env : Env) (m : Machine) : Nat × Machine :=
  let this := m.heap.length
  -- SetThis(this);
  let m := Fiber.SetThis (some this) m
  -- m_state = RUNNING; getcontext(&m_ctx); m_id = s_fiber_id++;
  let obj : Fiber :=
    { m_id := m.s_fiber_id, m_stacksize := env.rawStacksize this, m_state := State.RUNNING,
      m_ctx := Ctx.captured, m_stack := 0, m_cb := none,
      m_runInScheduler := env.rawRunInScheduler this }
  let m := { m with heap := m.heap ++ [some obj], s_fiber_id := (m.s_fiber_id + 1) % UINT64 }
  -- s_fiber_count++;
  (this, { m with s_fiber_count := (m.s_fiber_count + 1) % UINT64 })

/-- Fiber::Fiber(cb, stacksize, run_in_scheduler): a user fiber, built in fresh
storage.  The result of `malloc` is not checked by the source: on a null stack
`makecontext` faults, before an id is issued and before the counter moves. -/
def Fiber.ctor (env : Env) (cb : Callable) (stacksize : Nat) (run_in_scheduler : Bool)
    (m : Machine) : Except (Fault × Machine) (Nat × Machine) :=
  let this := m.heap.length
  -- m_state = READY; m_stacksize = stacksize ? stacksize : 128000; m_stack = malloc(m_stacksize);
  let m_stacksize := if stacksize ≠ 0 then stacksize else 128000
  let m_stack := env.malloc this m_stacksize
  -- getcontext; uc_stack.ss_sp = m_stack; uc_stack.ss_size = m_stacksize; makecontext(MainFunc);
  if m_stack = 0 then .error (Fault.nullStack, m)
  else
    -- m_id = s_fiber_id++;
    let obj : Fiber :=
      { m_id := m.s_fiber_id, m_stacksize := m_stacksize, m_state := State.READY,
        m_ctx := Ctx.made m_stack m_stacksize, m_stack := m_stack, m_cb := cb,
        m_runInScheduler := run_in_scheduler }
    let m := { m with heap := m.heap ++ [some obj], s_fiber_id := (m.s_fiber_id + 1) % UINT64 }
    -- s_fiber_count++;
    .ok (this, { m with s_fiber_count := (m.s_fiber_count + 1) % UINT64 })

/-- Fiber::~Fiber() followed by the release of the object's storage. -/
def Fiber.dtor (this : Nat) (m : Machine) : Exec :=
  match m.fiber? this with
  | none => .error (Fault.badPointer, m)
  | some _ =>
    -- s_fiber_count--; if (m_stack) free(m_stack);
    .ok { m with s_fiber_count := (m.s_fiber_count + UINT64 - 1) % UINT64,
                 heap := m.heap.set this none }

/-- Fiber::GetThis, returning the pointer held by the `shared_ptr`. -/
def Fiber.GetThis (env : Env) (m : Machine) : Except (Fault × Machine) (FiberPtr × Machine) :=
  match m.t_fiber with
  | some a =>
    -- return t_fiber->shared_from_this();
    match m.fiber? a with
    | none => .error (Fault.badPointer, m)
    | some _ => .ok (some a, m)
  | none =>
    -- std::shared_ptr<Fiber> main_fiber(new Fiber());
    let (main_fiber, m) := Fiber.ctorMain env m
    -- t_thread_fiber = main_fiber;
    let m := { m with t_thread_fiber := some main_fiber }
    -- t_scheduler_fiber = main_fiber.get();
    let m := { m with t_scheduler_fiber := some main_fiber }
    -- assert(t_fiber == main_fiber.get());
    if m.t_fiber = some main_fiber then
      -- return t_fiber->shared_from_this();
      .ok (m.t_fiber, m)
    else .error (Fault.assertion, m)

/-- Fiber::GetFiberId; `(uint64_t)-1` when no fiber is registered. -/
def Fiber.GetFiberId (m : Machine) : Except (Fault × Machine) Nat :=
  match m.t_fiber with
  | some a =>
    match m.fiber? a with
    | none => .error (Fault.badPointer, m)
    | some f => .ok f.m_id
  | none => .ok (UINT64 - 1)

/-- The call `swapcontext(&oucp->m_ctx, &ucp->m_ctx)`: the caller's remaining
code is stored in the context of `oucp`, then the context of `ucp` is entered.
A made context starts `MainFunc` if its stack holds `MainFunc` and the entry of
`ucp`; a saved context continues with its code and is used up. -/
def swapcontext (env : Env) (oucp ucp : FiberPtr) (m : Machine) : Exec :=
  match oucp, ucp with
  | none, _ => .error (Fault.nullDeref, m)
  | some _, none => .error (Fault.nullDeref, m)
  | some o, some u =>
    match m.fiber? o with
    | none => .error (Fault.badPointer, m)
    | some fo =>
      let m := m.setFiber o { fo with m_ctx := Ctx.saved m.pc }
      match m.fiber? u with
      | none => .error (Fault.badPointer, m)
      | some fu =>
        match fu.m_ctx with
        | Ctx.captured => .error (Fault.staleContext, m)
        | Ctx.consumed => .error (Fault.staleContext, m)
        | Ctx.made _ ss_size =>
          if ss_size < env.stackNeed fu.m_cb then .error (Fault.stackOverflow, m)
          else .ok { m with pc := [Instr.mainFunc] }
        | Ctx.saved k =>
          .ok { (m.setFiber u { fu with m_ctx := Ctx.consumed }) with pc := k }

/-- Fiber::reset. -/
def Fiber.reset (this : Nat) (cb : Callable) (m : Machine) : Exec :=
  match m.fiber? this with
  | none => .error (Fault.badPointer, m)
  | some f =>
    -- assert(m_stack != nullptr && m_state == TERM);
    if f.m_stack ≠ 0 ∧ f.m_state = State.TERM then
      -- m_state = READY; m_cb = cb; getcontext; uc_stack.ss_sp = m_stack;
      -- uc_stack.ss_size = m_stacksize; makecontext(MainFunc);
      .ok (m.setFiber this
        { f with m_state := State.READY, m_cb := cb,
                 m_ctx := Ctx.made f.m_stack f.m_stacksize })
    else .error (Fault.assertion, m)

/-- Fiber::resume. -/
def Fiber.resume (env : Env) (this : Nat) (m : Machine) : Exec :=
  match m.fiber? this with
  | none => .error (Fault.badPointer, m)
  | some f =>
    -- assert(m_state == READY);
    if f.m_state = State.READY then
      -- m_state = RUNNING;
      let m := m.setFiber this { f with m_state := State.RUNNING }
      if f.m_runInScheduler then
        -- SetThis(this); swapcontext(&(t_scheduler_fiber->m_ctx), &m_ctx)
        let m := Fiber.SetThis (some this) m
        swapcontext env m.t_scheduler_fiber (some this) m
      else
        -- SetThis(this); swapcontext(&(t_thread_fiber->m_ctx), &m_ctx)
        let m := Fiber.SetThis (some this) m
        swapcontext env m.t_thread_fiber (some this) m
    else .error (Fault.assertion, m)

/-- Fiber::yield. -/
def Fiber.yield (env : Env) (this : Nat) (m : Machine) : Exec :=
  match m.fiber? this with
  | none => .error (Fault.badPointer, m)
  | some f =>
    -- assert(m_state == RUNNING || m_state == TERM);
    if f.m_state = State.RUNNING ∨ f.m_state = State.TERM then
      -- if (m_state != TERM) m_state = READY;
      let m := if f.m_state ≠ State.TERM then m.setFiber this { f with m_state := State.READY }
               else m
      if f.m_runInScheduler then
        -- SetThis(t_scheduler_fiber); swapcontext(&m_ctx, &(t_scheduler_fiber->m_ctx))
        let m := Fiber.SetThis m.t_scheduler_fiber m
        swapcontext env (some this) m.t_scheduler_fiber m
      else
        -- SetThis(t_thread_fiber.get()); swapcontext(&m_ctx, &(t_thread_fiber->m_ctx))
        let m := Fiber.SetThis m.t_thread_fiber m
        swapcontext env (some this) m.t_thread_fiber m
    else .error (Fault.assertion, m)

/-- Fiber::MainFunc up to the call of the entry callable: the body of `m_cb` is
put in front of the rest of `MainFunc`. -/
def Fiber.MainFunc (env : Env) (m : Machine) : Exec :=
  -- std::shared_ptr<Fiber> curr = GetThis();
  match Fiber.GetThis env m with
  | .error e => .error e
  | .ok (curr, m) =>
    -- assert(curr != nullptr);
    match curr with
    | none => .error (Fault.assertion, m)
    | some c =>
      match m.fiber? c with
      | none => .error (Fault.badPointer, m)
      | some f =>
        -- curr->m_cb();
        match f.m_cb with
        | none => .error (Fault.badFunctionCall, m)
        | some body => .ok { m with pc := env.code body ++ Instr.mainFuncTail c :: m.pc }

/-- Fiber::MainFunc from the return of `curr->m_cb()` on. -/
def Fiber.MainFuncTail (env : Env) (curr : Nat) (m : Machine) : Exec :=
  match m.fiber? curr with
  | none => .error (Fault.badPointer, m)
  | some f =>
    -- curr->m_cb = nullptr; curr->m_state = TERM;
    let m := m.setFiber curr { f with m_cb := none, m_state := State.TERM }
    -- auto raw_ptr = curr.get(); curr.reset(); raw_ptr->yield();
    Fiber.yield env curr m

/-- Run one call, `m.pc` being the code that follows it. -/
def exec (env : Env) (i : Instr) (m : Machine) : Exec :=
  match i with
  | Instr.getThis =>
    match Fiber.GetThis env m with
    | .error e => .error e
    | .ok (_, m) => .ok m
  | Instr.setSchedulerFiber f => .ok (Fiber.SetSchedulerFiber f m)
  | Instr.newFiber cb stacksize run_in_scheduler =>
    match Fiber.ctor env cb stacksize run_in_scheduler m with
    | .error e => .error e
    | .ok (_, m) => .ok m
  | Instr.deleteFiber p => Fiber.dtor p m
  | Instr.reset p cb => Fiber.reset p cb m
  | Instr.resume p => Fiber.resume env p m
  | Instr.yield p => Fiber.yield env p m
  | Instr.yieldThis =>
    match Fiber.GetThis env m with
    | .error e => .error e
    | .ok (none, m) => .error (Fault.nullDeref, m)
    | .ok (some p, m) => Fiber.yield env p m
  | Instr.mainFunc => Fiber.MainFunc env m
  | Instr.mainFuncTail curr => Fiber.MainFuncTail env curr m

/-- One step of the thread: run the next call of the current code.  With no
code left the thread has finished and the state stays. -/
def step (env : Env) (m : Machine) : Exec :=
  match m.pc with
  | [] => .ok m
  | i :: k => exec env i { m with pc := k }

/-- The thread after `n` steps. -/
def runN (env : Env) : Nat → Machine → Exec
  | 0, m => .ok m
  | n + 1, m =>
    match step env m with
    | .error e => .error e
    | .ok m => runN env n m

/-- Addresses of the live fibers whose state is RUNNING. -/
def Machine.running (m : Machine) : List Nat :=
  (List.range m.heap.length).filter fun a =>
    match m.fiber? a with
    | some f => f.m_state = State.RUNNING
    | none => false

/-- An environment for the examples: callable `0` is `{ GetThis()->yield(); }`,
callable `1` is `{ GetThis(); new Fiber(nullptr, 0, false); (that fiber)->resume(); }`
for a fiber that will sit at address `2`, callable `2` is `{ (the fiber at 1)->resume(); }`;
every other callable is empty-bodied; `malloc` returns the address `4096 * (a + 1)`;
`MainFunc` with any entry needs 1024 bytes of stack. -/
def demoEnv : Env :=
  { code := fun c =>
      if c = 0 then [Instr.yieldThis]
      else if c = 1 then [Instr.getThis, Instr.newFiber none 0 false, Instr.resume 2]
      else if c = 2 then [Instr.resume 1]
      else [],
    malloc := fun a _ => 4096 * (a + 1),
    rawStacksize := fun _ => 0,
    rawRunInScheduler := fun _ => false,
    stackNeed := fun _ => 1024 }

/-! ## Observations, predicates and example programs -/

/-- Number of live fiber objects. -/
def Machine.live (m : Machine) : Nat := m.heap.countP Option.isSome

/-- The state of the live fiber at `a`. -/
def Machine.stateOf (m : Machine) (a : Nat) : Option State :=
  (m.fiber? a).map fun f => f.m_state

/-- Every live fiber object of the state satisfies `P`. -/
def Machine.allFibers (P : Fiber → Prop) (m : Machine) : Prop :=
  ∀ f, some f ∈ m.heap → P f

/-- A fiber in state TERM holds the empty callable. -/
def Fiber.termHasNoEntry (f : Fiber) : Prop :=
  f.m_state = State.TERM → f.m_cb = none

/-- The calls the thread makes in its first `n` steps, in order; a call that faults is
the last one. -/
def trace (env : Env) : Nat → Machine → List Instr
  | 0, _ => []
  | n + 1, m =>
    match m.pc with
    | [] => []
    | i :: k =>
      match exec env i { m with pc := k } with
      | .error _ => [i]
      | .ok m' => i :: trace env n m'

/-- The main-fiber slot, the scheduler-fiber slot, the two process-wide counters and the
number of live fiber objects are the same in both states. -/
def Machine.sameSlotsAndCounters (m r : Machine) : Prop :=
  r.t_thread_fiber = m.t_thread_fiber ∧ r.t_scheduler_fiber = m.t_scheduler_fiber ∧
  r.s_fiber_count = m.s_fiber_count ∧ r.s_fiber_id = m.s_fiber_id ∧ r.live = m.live

/-- Both counterpart slots of the registry hold a fiber. -/
def Machine.counterpartsSet (m : Machine) : Prop :=
  m.t_thread_fiber ≠ none ∧ m.t_scheduler_fiber ≠ none

/-- The code of a fresh thread in the scenario: build F with entry `c`, stack size
`stacksize` and `run_in_scheduler = false` (F is at address `0`), call `GetThis()` (the main
fiber M is built at address `1`), then `F->resume()` twice. -/
def scenarioMain (c stacksize : Nat) : List Instr :=
  [Instr.newFiber (some c) stacksize false, Instr.getThis, Instr.resume 0, Instr.resume 0]

/-- The code of a fresh thread that installs a scheduler fiber before any call of
`GetThis()`: build F (address `0`, entry callable `1`, scheduler mode) and G (address `1`),
make G the scheduler fiber, resume F. -/
def lateBootstrapMain : List Instr :=
  [Instr.newFiber (some 1) 0 true, Instr.newFiber none 0 true,
   Instr.setSchedulerFiber (some 1), Instr.resume 0]

/-- One fiber construction somewhere in the process: a user fiber through the public
constructor, or the main fiber of a thread through `Fiber::Fiber()` (called by `GetThis()`
when that thread has no current fiber). -/
inductive Construction where
  | user (cb : Callable) (stacksize : Nat) (run_in_scheduler : Bool)
  | main
  deriving DecidableEq, Repr

/-- Run the constructor named by `c`; the result is the address of the new object. -/
def construct (env : Env) (c : Construction) (m : Machine) :
    Except (Fault × Machine) (Nat × Machine) :=
  match c with
  | Construction.user cb stacksize run_in_scheduler => Fiber.ctor env cb stacksize run_in_scheduler m
  | Construction.main => .ok (Fiber.ctorMain env m)

/-- Run a sequence of constructions and record, in order, each construction with the
object it has just built; a construction that faults ends the process. -/
def constructed (env : Env) : List Construction → Machine → List (Construction × Fiber)
  | [], _ => []
  | c :: cs, m =>
    match construct env c m with
    | .error _ => []
    | .ok (p, m') =>
      match m'.fiber? p with
      | some f => (c, f) :: constructed env cs m'
      | none => constructed env cs m'

/-- The scenario thread of `scenarioMain 0 0` in the example environment after three steps:
F (address `0`) has been resumed and is RUNNING, M is at address `1`. -/
def demoRunning : Machine := (runN demoEnv 3 (boot (scenarioMain 0 0))).final

/-- The same thread after seven steps: the entry of F has returned and F is TERM. -/
def demoTerminated : Machine := (runN demoEnv 7 (boot (scenarioMain 0 0))).final

theorem fiber?_eq_some {m : Machine} {a : Nat} {f : Fiber} :
    m.fiber? a = some f ↔ m.heap[a]? = some (some f) := by
  unfold Machine.fiber?
  split
  · next g hg => simp [hg]
  · next hn =>
    constructor
    · intro h; cases h
    · intro h; exact absurd h (hn f)

theorem fiber?_lt {m : Machine} {a : Nat} {f : Fiber} (h : m.fiber? a = some f) :
    a < m.heap.length := by
  rw [fiber?_eq_some, List.getElem?_eq_some] at h
  exact h.1

theorem fiber?_mem {m : Machine} {a : Nat} {f : Fiber} (h : m.fiber? a = some f) :
    some f ∈ m.heap :=
  List.getElem?_mem (fiber?_eq_some.1 h)

theorem fiber?_setFiber_self {m : Machine} {a : Nat} (g : Fiber) (h : a < m.heap.length) :
    (m.setFiber a g).fiber? a = some g := by
  rw [fiber?_eq_some]
  exact List.getElem?_set_self h

theorem fiber?_setFiber_of_ne {m : Machine} {a b : Nat} (g : Fiber) (h : a ≠ b) :
    (m.setFiber a g).fiber? b = m.fiber? b := by
  unfold Machine.fiber? Machine.setFiber
  simp only [List.getElem?_set_ne h]

theorem ctor_ok {env : Env} {cb : Callable} {stacksize : Nat} {ris : Bool}
    {m m' : Machine} {p : Nat} (h : Fiber.ctor env cb stacksize ris m = .ok (p, m')) :
    ∃ f, m'.heap = m.heap ++ [some f] ∧ p = m.heap.length ∧
      f.m_id = m.s_fiber_id ∧ f.m_state = State.READY ∧
      m'.s_fiber_id = (m.s_fiber_id + 1) % UINT64 ∧
      m'.s_fiber_count = (m.s_fiber_count + 1) % UINT64 ∧
      m'.t_thread_fiber = m.t_thread_fiber ∧ m'.t_scheduler_fiber = m.t_scheduler_fiber := by
  by_cases hm : env.malloc m.heap.length (if stacksize ≠ 0 then stacksize else 128000) = 0
  · simp only [Fiber.ctor, hm, if_true] at h
    exact absurd h (by intro h0; cases h0)
  · simp only [Fiber.ctor, hm, if_false] at h
    have h1 := Except.ok.inj h
    rw [← (Prod.mk.inj h1).1, ← (Prod.mk.inj h1).2]
    exact ⟨_, rfl, rfl, rfl, rfl, rfl, rfl, rfl, rfl⟩

theorem ctor_ok_of_malloc (env : Env) (cb : Callable) (stacksize : Nat) (ris : Bool)
    (m : Machine)
    (h : env.malloc m.heap.length (if stacksize ≠ 0 then stacksize else 128000) ≠ 0) :
    ∃ m', Fiber.ctor env cb stacksize ris m = .ok (m.heap.length, m') := by
  unfold Fiber.ctor
  dsimp only
  rw [if_neg h]
  exact ⟨_, rfl⟩

/-! ## Context switches leave the bookkeeping alone -/

theorem countP_isSome_set_some {α : Type} (l : List (Option α)) (a : Nat) (f g : α)
    (h : l[a]? = some (some f)) :
    (l.set a (some g)).countP Option.isSome = l.countP Option.isSome := by
  induction l generalizing a with
  | nil => simp at h
  | cons x xs ih =>
    cases a with
    | zero =>
      simp only [List.getElem?_cons_zero, Option.some.injEq] at h
      subst h
      simp [List.countP_cons]
    | succ a =>
      simp only [List.getElem?_cons_succ] at h
      simp [List.countP_cons, ih a h]

theorem live_setFiber {m : Machine} {a : Nat} {f : Fiber} (g : Fiber)
    (h : m.fiber? a = some f) : (m.setFiber a g).live = m.live :=
  countP_isSome_set_some m.heap a f g (fiber?_eq_some.1 h)

theorem sameSlotsAndCounters_refl (m : Machine) : m.sameSlotsAndCounters m :=
  ⟨rfl, rfl, rfl, rfl, rfl⟩

theorem sameSlotsAndCounters_trans {m r s : Machine} (h1 : m.sameSlotsAndCounters r)
    (h2 : r.sameSlotsAndCounters s) : m.sameSlotsAndCounters s :=
  ⟨h2.1.trans h1.1, h2.2.1.trans h1.2.1, h2.2.2.1.trans h1.2.2.1,
    h2.2.2.2.1.trans h1.2.2.2.1, h2.2.2.2.2.trans h1.2.2.2.2⟩

theorem sameSlotsAndCounters_setFiber {m : Machine} {a : Nat} {f : Fiber} (g : Fiber)
    (h : m.fiber? a = some f) : m.sameSlotsAndCounters (m.setFiber a g) :=
  ⟨rfl, rfl, rfl, rfl, live_setFiber g h⟩

theorem sameSlotsAndCounters_SetThis (m : Machine) (p : FiberPtr) :
    m.sameSlotsAndCounters (Fiber.SetThis p m) :=
  ⟨rfl, rfl, rfl, rfl, rfl⟩

theorem swapcontext_sameSlotsAndCounters (env : Env) (oucp ucp : FiberPtr) (m : Machine) :
    m.sameSlotsAndCounters (swapcontext env oucp ucp m).final := by
  unfold swapcontext
  split
  · exact sameSlotsAndCounters_refl m
  · exact sameSlotsAndCounters_refl m
  · next o u =>
    split
    · exact sameSlotsAndCounters_refl m
    · next fo ho =>
      have hsave := sameSlotsAndCounters_setFiber { fo with m_ctx := Ctx.saved m.pc } ho
      dsimp only
      split
      · exact hsave
      · next fu hu =>
        split
        · exact hsave
        · exact hsave
        · split
          · exact hsave
          · exact hsave
        · exact sameSlotsAndCounters_trans hsave
            (sameSlotsAndCounters_setFiber { fu with m_ctx := Ctx.consumed } hu)

theorem resume_sameSlotsAndCounters (env : Env) (p : Nat) (m : Machine) :
    m.sameSlotsAndCounters (Fiber.resume env p m).final := by
  unfold Fiber.resume
  split
  · exact sameSlotsAndCounters_refl m
  · next f hf =>
    have h1 := sameSlotsAndCounters_trans
      (sameSlotsAndCounters_setFiber { f with m_state := State.RUNNING } hf)
      (sameSlotsAndCounters_SetThis _ (some p))
    split
    · dsimp only
      split
      · exact sameSlotsAndCounters_trans h1 (swapcontext_sameSlotsAndCounters _ _ _ _)
      · exact sameSlotsAndCounters_trans h1 (swapcontext_sameSlotsAndCounters _ _ _ _)
    · exact sameSlotsAndCounters_refl m

theorem yield_sameSlotsAndCounters (env : Env) (p : Nat) (m : Machine) :
    m.sameSlotsAndCounters (Fiber.yield env p m).final := by
  unfold Fiber.yield
  split
  · exact sameSlotsAndCounters_refl m
  · next f hf =>
    split
    · have h1 : m.sameSlotsAndCounters (if f.m_state ≠ State.TERM
          then m.setFiber p { f with m_state := State.READY } else m) := by
        split
        · exact sameSlotsAndCounters_setFiber _ hf
        · exact sameSlotsAndCounters_refl m
      dsimp only
      split
      · exact sameSlotsAndCounters_trans
          (sameSlotsAndCounters_trans h1 (sameSlotsAndCounters_SetThis _ _))
          (swapcontext_sameSlotsAndCounters _ _ _ _)
      · exact sameSlotsAndCounters_trans
          (sameSlotsAndCounters_trans h1 (sameSlotsAndCounters_SetThis _ _))
          (swapcontext_sameSlotsAndCounters _ _ _ _)
    · exact sameSlotsAndCounters_refl m

theorem reset_sameSlotsAndCounters (p : Nat) (cb : Callable) (m : Machine) :
    m.sameSlotsAndCounters (Fiber.reset p cb m).final := by
  unfold Fiber.reset
  split
  · exact sameSlotsAndCounters_refl m
  · next f hf =>
    split
    · exact sameSlotsAndCounters_setFiber _ hf
    · exact sameSlotsAndCounters_refl m

theorem MainFuncTail_sameSlotsAndCounters (env : Env) (curr : Nat) (m : Machine) :
    m.sameSlotsAndCounters (Fiber.MainFuncTail env curr m).final := by
  unfold Fiber.MainFuncTail
  split
  · exact sameSlotsAndCounters_refl m
  · next f hf =>
    exact sameSlotsAndCounters_trans (sameSlotsAndCounters_setFiber _ hf)
      (yield_sameSlotsAndCounters env curr _)

/-! ## Properties of all fiber objects -/

theorem allFibers_setFiber {P : Fiber → Prop} {m : Machine} (a : Nat) {g : Fiber}
    (h : m.allFibers P) (hg : P g) : (m.setFiber a g).allFibers P := by
  intro f hf
  rcases List.mem_or_eq_of_mem_set hf with h1 | h1
  · exact h f h1
  · cases h1; exact hg

theorem allFibers_of_heap_eq {P : Fiber → Prop} {m r : Machine} (hr : r.heap = m.heap)
    (h : m.allFibers P) : r.allFibers P := by
  intro f hf
  rw [hr] at hf
  exact h f hf

theorem allFibers_push {P : Fiber → Prop} {m r : Machine} {obj : Fiber}
    (hr : r.heap = m.heap ++ [some obj]) (h : m.allFibers P) (hobj : P obj) :
    r.allFibers P := by
  intro f hf
  rw [hr, List.mem_append] at hf
  rcases hf with h1 | h1
  · exact h f h1
  · simp at h1; cases h1; exact hobj

theorem allFibers_free {P : Fiber → Prop} {m r : Machine} {p : Nat}
    (hr : r.heap = m.heap.set p none) (h : m.allFibers P) : r.allFibers P := by
  intro f hf
  rw [hr] at hf
  rcases List.mem_or_eq_of_mem_set hf with h1 | h1
  · exact h f h1
  · cases h1

theorem allFibers_fiber? {P : Fiber → Prop} {m : Machine} (h : m.allFibers P) {a : Nat}
    {f : Fiber} (hf : m.fiber? a = some f) : P f :=
  h f (fiber?_mem hf)

theorem swapcontext_allFibers {P : Fiber → Prop} (hctx : ∀ f c, P f → P { f with m_ctx := c })
    (env : Env) (oucp ucp : FiberPtr) {m : Machine} (h : m.allFibers P) :
    (swapcontext env oucp ucp m).final.allFibers P := by
  unfold swapcontext
  split
  · exact h
  · exact h
  · next o u =>
    split
    · exact h
    · next fo ho =>
      have hsave : (m.setFiber o { fo with m_ctx := Ctx.saved m.pc }).allFibers P :=
        allFibers_setFiber o h (hctx _ _ (allFibers_fiber? h ho))
      dsimp only
      split
      · exact hsave
      · next fu hu =>
        split
        · exact hsave
        · exact hsave
        · split
          · exact hsave
          · exact hsave
        · exact allFibers_setFiber (m := m.setFiber o { fo with m_ctx := Ctx.saved m.pc }) u
            hsave (hctx _ _ (allFibers_fiber? hsave hu))

/-! ## A TERM fiber holds no entry callable -/

theorem termHasNoEntry_ctx (f : Fiber) (c : Ctx) (h : f.termHasNoEntry) :
    Fiber.termHasNoEntry { f with m_ctx := c } := h

theorem ctorMain_termHasNoEntry (env : Env) {m : Machine}
    (h : m.allFibers Fiber.termHasNoEntry) :
    (Fiber.ctorMain env m).2.allFibers Fiber.termHasNoEntry := by
  refine allFibers_push (m := m) rfl h ?_
  intro hs; cases hs

theorem ctor_termHasNoEntry (env : Env) (cb : Callable) (stacksize : Nat) (ris : Bool)
    {m m' : Machine} {p : Nat} (h : m.allFibers Fiber.termHasNoEntry)
    (hr : Fiber.ctor env cb stacksize ris m = .ok (p, m')) :
    m'.allFibers Fiber.termHasNoEntry := by
  obtain ⟨f, hheap, _, _, hst, _⟩ := ctor_ok hr
  refine allFibers_push hheap h ?_
  intro hs; rw [hst] at hs; cases hs

theorem dtor_termHasNoEntry (p : Nat) {m m' : Machine}
    (h : m.allFibers Fiber.termHasNoEntry) (hr : Fiber.dtor p m = .ok m') :
    m'.allFibers Fiber.termHasNoEntry := by
  unfold Fiber.dtor at hr
  split at hr
  · cases hr
  · cases hr
    exact allFibers_free (m := m) (p := p) rfl h

theorem GetThis_termHasNoEntry (env : Env) {m m' : Machine} {r : FiberPtr}
    (h : m.allFibers Fiber.termHasNoEntry) (hr : Fiber.GetThis env m = .ok (r, m')) :
    m'.allFibers Fiber.termHasNoEntry := by
  unfold Fiber.GetThis at hr
  split at hr
  · split at hr
    · cases hr
    · cases hr; exact h
  · dsimp only at hr
    split at hr
    · cases hr
      exact allFibers_of_heap_eq (m := (Fiber.ctorMain env m).2) rfl
        (ctorMain_termHasNoEntry env h)
    · cases hr

theorem reset_termHasNoEntry (p : Nat) (cb : Callable) {m m' : Machine}
    (h : m.allFibers Fiber.termHasNoEntry) (hr : Fiber.reset p cb m = .ok m') :
    m'.allFibers Fiber.termHasNoEntry := by
  unfold Fiber.reset at hr
  split at hr
  · cases hr
  · split at hr
    · cases hr
      refine allFibers_setFiber p h ?_
      intro hs; cases hs
    · cases hr

theorem resume_termHasNoEntry (env : Env) (p : Nat) {m : Machine}
    (h : m.allFibers Fiber.termHasNoEntry) :
    (Fiber.resume env p m).final.allFibers Fiber.termHasNoEntry := by
  unfold Fiber.resume
  split
  · exact h
  · next f hf =>
    have h1 : (m.setFiber p { f with m_state := State.RUNNING }).allFibers
        Fiber.termHasNoEntry :=
      allFibers_setFiber p h (by intro hs; cases hs)
    split
    · dsimp only
      split
      · exact swapcontext_allFibers termHasNoEntry_ctx _ _ _
          (allFibers_of_heap_eq (m := m.setFiber p { f with m_state := State.RUNNING }) rfl h1)
      · exact swapcontext_allFibers termHasNoEntry_ctx _ _ _
          (allFibers_of_heap_eq (m := m.setFiber p { f with m_state := State.RUNNING }) rfl h1)
    · exact h

theorem yield_termHasNoEntry (env : Env) (p : Nat) {m : Machine}
    (h : m.allFibers Fiber.termHasNoEntry) :
    (Fiber.yield env p m).final.allFibers Fiber.termHasNoEntry := by
  unfold Fiber.yield
  split
  · exact h
  · next f hf =>
    split
    · have h1 : (if f.m_state ≠ State.TERM then m.setFiber p { f with m_state := State.READY }
          else m).allFibers Fiber.termHasNoEntry := by
        split
        · exact allFibers_setFiber p h (by intro hs; cases hs)
        · exact h
      dsimp only
      split
      · exact swapcontext_allFibers termHasNoEntry_ctx _ _ _ (allFibers_of_heap_eq rfl h1)
      · exact swapcontext_allFibers termHasNoEntry_ctx _ _ _ (allFibers_of_heap_eq rfl h1)
    · exact h

theorem MainFunc_termHasNoEntry (env : Env) {m m' : Machine}
    (h : m.allFibers Fiber.termHasNoEntry) (hr : Fiber.MainFunc env m = .ok m') :
    m'.allFibers Fiber.termHasNoEntry := by
  unfold Fiber.MainFunc at hr
  split at hr
  · cases hr
  · next curr m1 hg =>
    have h1 := GetThis_termHasNoEntry env h hg
    split at hr
    · cases hr
    · split at hr
      · cases hr
      · split at hr
        · cases hr
        · cases hr; exact h1

theorem MainFuncTail_termHasNoEntry (env : Env) (curr : Nat) {m : Machine}
    (h : m.allFibers Fiber.termHasNoEntry) :
    (Fiber.MainFuncTail env curr m).final.allFibers Fiber.termHasNoEntry := by
  unfold Fiber.MainFuncTail
  split
  · exact h
  · next f hf =>
    exact yield_termHasNoEntry env curr (allFibers_setFiber curr h (fun _ => rfl))

theorem final_of_ok {r : Exec} {m : Machine} (h : r = .ok m) : r.final = m := by
  subst h; rfl

theorem exec_termHasNoEntry (env : Env) (i : Instr) {m m' : Machine}
    (h : m.allFibers Fiber.termHasNoEntry) (hr : exec env i m = .ok m') :
    m'.allFibers Fiber.termHasNoEntry := by
  cases i with
  | getThis =>
    simp only [exec] at hr
    split at hr
    · cases hr
    · next r m1 hg => cases hr; exact GetThis_termHasNoEntry env h hg
  | setSchedulerFiber f => simp only [exec] at hr; cases hr; exact h
  | newFiber cb ss ris =>
    simp only [exec] at hr
    split at hr
    · cases hr
    · next p m1 hc =>
      rw [← Except.ok.inj hr]
      exact ctor_termHasNoEntry env cb ss ris h hc
  | deleteFiber p => exact dtor_termHasNoEntry p h hr
  | reset p cb => exact reset_termHasNoEntry p cb h hr
  | resume p =>
    have := resume_termHasNoEntry env p h
    rwa [final_of_ok (show Fiber.resume env p m = .ok m' from hr)] at this
  | yield p =>
    have := yield_termHasNoEntry env p h
    rwa [final_of_ok (show Fiber.yield env p m = .ok m' from hr)] at this
  | yieldThis =>
    simp only [exec] at hr
    split at hr
    · cases hr
    · cases hr
    · next q m1 hg =>
      have := yield_termHasNoEntry env q (GetThis_termHasNoEntry env h hg)
      rwa [final_of_ok hr] at this
  | mainFunc => exact MainFunc_termHasNoEntry env h hr
  | mainFuncTail curr =>
    have := MainFuncTail_termHasNoEntry env curr h
    rwa [final_of_ok (show Fiber.MainFuncTail env curr m = .ok m' from hr)] at this

theorem step_termHasNoEntry (env : Env) {m m' : Machine}
    (h : m.allFibers Fiber.termHasNoEntry) (hr : step env m = .ok m') :
    m'.allFibers Fiber.termHasNoEntry := by
  unfold step at hr
  split at hr
  · cases hr; exact h
  · next i k hpc =>
    exact exec_termHasNoEntry env i (m := { m with pc := k }) (allFibers_of_heap_eq rfl h) hr

theorem runN_termHasNoEntry (env : Env) (n : Nat) : ∀ {m m' : Machine},
    m.allFibers Fiber.termHasNoEntry → runN env n m = .ok m' →
    m'.allFibers Fiber.termHasNoEntry := by
  induction n with
  | zero => intro m m' h hr; simp only [runN] at hr; cases hr; exact h
  | succ n ih =>
    intro m m' h hr
    simp only [runN] at hr
    split at hr
    · cases hr
    · next m1 hs => exact ih (step_termHasNoEntry env h hs) hr

/-! ## The counterpart slots once the main fiber exists -/

theorem counterpartsSet_of_same {m r : Machine} (h : m.sameSlotsAndCounters r)
    (hm : m.counterpartsSet) : r.counterpartsSet := by
  obtain ⟨h1, h2, _, _, _⟩ := h
  exact ⟨by rw [h1]; exact hm.1, by rw [h2]; exact hm.2⟩

theorem GetThis_bootstrap (env : Env) (m : Machine) (h0 : m.t_fiber = none) :
    ∃ a m', Fiber.GetThis env m = .ok (some a, m') ∧ m'.t_fiber = some a ∧
      m'.t_thread_fiber = some a ∧ m'.t_scheduler_fiber = some a ∧ m'.pc = m.pc := by
  refine ⟨m.heap.length,
    { (Fiber.ctorMain env m).2 with
      t_thread_fiber := some m.heap.length, t_scheduler_fiber := some m.heap.length },
    ?_, rfl, rfl, rfl, rfl⟩
  simp [Fiber.GetThis, h0, Fiber.ctorMain, Fiber.SetThis]

theorem GetThis_counterpartsSet (env : Env) {m m' : Machine} {r : FiberPtr}
    (hm : m.counterpartsSet) (hr : Fiber.GetThis env m = .ok (r, m')) :
    m'.counterpartsSet := by
  unfold Fiber.GetThis at hr
  split at hr
  · split at hr
    · cases hr
    · cases hr; exact hm
  · dsimp only at hr
    split at hr
    · cases hr
      exact ⟨Option.some_ne_none _, Option.some_ne_none _⟩
    · cases hr

theorem exec_counterpartsSet (env : Env) (i : Instr) {m m' : Machine}
    (hi : i ≠ Instr.setSchedulerFiber none) (hm : m.counterpartsSet)
    (hr : exec env i m = .ok m') : m'.counterpartsSet := by
  cases i with
  | getThis =>
    simp only [exec] at hr
    split at hr
    · cases hr
    · next r m1 hg => cases hr; exact GetThis_counterpartsSet env hm hg
  | setSchedulerFiber f =>
    simp only [exec] at hr; cases hr
    refine ⟨hm.1, ?_⟩
    intro hf
    apply hi
    simp only [Fiber.SetSchedulerFiber] at hf
    rw [hf]
  | newFiber cb ss ris =>
    simp only [exec] at hr
    split at hr
    · cases hr
    · next p m1 hc =>
      obtain ⟨_, _, _, _, _, _, _, h1, h2⟩ := ctor_ok hc
      rw [← Except.ok.inj hr]
      exact ⟨by rw [h1]; exact hm.1, by rw [h2]; exact hm.2⟩
  | deleteFiber p =>
    simp only [exec, Fiber.dtor] at hr
    split at hr
    · cases hr
    · rw [← Except.ok.inj hr]; exact ⟨hm.1, hm.2⟩
  | reset p cb =>
    have := counterpartsSet_of_same (reset_sameSlotsAndCounters p cb m) hm
    rwa [final_of_ok (show Fiber.reset p cb m = .ok m' from hr)] at this
  | resume p =>
    have := counterpartsSet_of_same (resume_sameSlotsAndCounters env p m) hm
    rwa [final_of_ok (show Fiber.resume env p m = .ok m' from hr)] at this
  | yield p =>
    have := counterpartsSet_of_same (yield_sameSlotsAndCounters env p m) hm
    rwa [final_of_ok (show Fiber.yield env p m = .ok m' from hr)] at this
  | yieldThis =>
    simp only [exec] at hr
    split at hr
    · cases hr
    · cases hr
    · next q m1 hg =>
      have := counterpartsSet_of_same (yield_sameSlotsAndCounters env q m1)
        (GetThis_counterpartsSet env hm hg)
      rwa [final_of_ok hr] at this
  | mainFunc =>
    simp only [exec, Fiber.MainFunc] at hr
    split at hr
    · cases hr
    · next curr m1 hg =>
      have h1 := GetThis_counterpartsSet env hm hg
      split at hr
      · cases hr
      · split at hr
        · cases hr
        · split at hr
          · cases hr
          · cases hr; exact h1
  | mainFuncTail curr =>
    have := counterpartsSet_of_same (MainFuncTail_sameSlotsAndCounters env curr m) hm
    rwa [final_of_ok (show Fiber.MainFuncTail env curr m = .ok m' from hr)] at this

theorem runN_succ_nil (env : Env) (n : Nat) {m : Machine} (hpc : m.pc = []) :
    runN env (n + 1) m = runN env n m := by
  simp [runN, step, hpc]

theorem runN_succ_cons (env : Env) (n : Nat) {m : Machine} {i : Instr} {k : List Instr}
    (hpc : m.pc = i :: k) :
    runN env (n + 1) m =
      match exec env i { m with pc := k } with
      | .error e => .error e
      | .ok m1 => runN env n m1 := by
  simp [runN, step, hpc]

theorem trace_nil (env : Env) (n : Nat) {m : Machine} (hpc : m.pc = []) :
    trace env n m = [] := by
  cases n with
  | zero => rfl
  | succ n => simp [trace, hpc]

theorem trace_succ_cons (env : Env) (n : Nat) {m : Machine} {i : Instr} {k : List Instr}
    (hpc : m.pc = i :: k) :
    trace env (n + 1) m =
      match exec env i { m with pc := k } with
      | .error _ => [i]
      | .ok m1 => i :: trace env n m1 := by
  simp [trace, hpc]

theorem runN_counterpartsSet (env : Env) (n : Nat) : ∀ {m m' : Machine},
    m.counterpartsSet → runN env n m = .ok m' →
    Instr.setSchedulerFiber none ∉ trace env n m → m'.counterpartsSet := by
  induction n with
  | zero => intro m m' h hr _; simp only [runN] at hr; cases hr; exact h
  | succ n ih =>
    intro m m' h hr ht
    cases hpc : m.pc with
    | nil =>
      rw [runN_succ_nil env n hpc] at hr
      exact ih h hr (by rw [trace_nil env n hpc]; simp)
    | cons i k =>
      rw [runN_succ_cons env n hpc] at hr
      rw [trace_succ_cons env n hpc] at ht
      cases hs : exec env i { m with pc := k } with
      | error e => rw [hs] at hr; cases hr
      | ok m1 =>
        rw [hs] at hr ht
        simp only [List.mem_cons, not_or] at ht
        exact ih (exec_counterpartsSet env i (Ne.symm ht.1) (m := { m with pc := k }) h hs)
          hr ht.2

theorem swapcontext_no_nullDeref (env : Env) (o u : Nat) (m m' : Machine) :
    swapcontext env (some o) (some u) m ≠ .error (Fault.nullDeref, m') := by
  unfold swapcontext
  dsimp only
  intro h
  split at h
  · cases h
  · split at h
    · cases h
    · split at h
      · cases h
      · cases h
      · split at h
        · cases h
        · cases h
      · cases h

theorem resume_no_nullDeref (env : Env) (p : Nat) {m : Machine} (hm : m.counterpartsSet)
    (m' : Machine) : Fiber.resume env p m ≠ .error (Fault.nullDeref, m') := by
  obtain ⟨h1, h2⟩ := hm
  obtain ⟨a, ha⟩ := Option.ne_none_iff_exists'.1 h1
  obtain ⟨b, hb⟩ := Option.ne_none_iff_exists'.1 h2
  unfold Fiber.resume
  intro h
  split at h
  · cases h
  · split at h
    · dsimp only at h
      split at h
      · simp only [Fiber.SetThis, Machine.setFiber, hb] at h
        exact swapcontext_no_nullDeref _ _ _ _ _ h
      · simp only [Fiber.SetThis, Machine.setFiber, ha] at h
        exact swapcontext_no_nullDeref _ _ _ _ _ h
    · cases h

theorem yield_no_nullDeref (env : Env) (p : Nat) {m : Machine} (hm : m.counterpartsSet)
    (m' : Machine) : Fiber.yield env p m ≠ .error (Fault.nullDeref, m') := by
  obtain ⟨h1, h2⟩ := hm
  obtain ⟨a, ha⟩ := Option.ne_none_iff_exists'.1 h1
  obtain ⟨b, hb⟩ := Option.ne_none_iff_exists'.1 h2
  unfold Fiber.yield
  intro h
  split at h
  · cases h
  · next f hf =>
    split at h
    · have e1 : (if f.m_state ≠ State.TERM then m.setFiber p { f with m_state := State.READY }
          else m).t_thread_fiber = some a := by
        split <;> simpa [Machine.setFiber] using ha
      have e2 : (if f.m_state ≠ State.TERM then m.setFiber p { f with m_state := State.READY }
          else m).t_scheduler_fiber = some b := by
        split <;> simpa [Machine.setFiber] using hb
      dsimp only at h
      split at h
      · simp only [Fiber.SetThis, e2] at h
        exact swapcontext_no_nullDeref _ _ _ _ _ h
      · simp only [Fiber.SetThis, e1] at h
        exact swapcontext_no_nullDeref _ _ _ _ _ h
    · cases h

/-! ## Identifiers handed out by the constructors -/

theorem fiber?_push {m r : Machine} {obj : Fiber} (hr : r.heap = m.heap ++ [some obj]) :
    r.fiber? m.heap.length = some obj := by
  rw [fiber?_eq_some, hr]
  exact List.getElem?_concat_length _ _

theorem construct_push {env : Env} {c : Construction} {m m' : Machine} {p : Nat}
    (h : construct env c m = .ok (p, m')) :
    ∃ f, m'.heap = m.heap ++ [some f] ∧ p = m.heap.length ∧
      f.m_id = m.s_fiber_id ∧ (c ≠ Construction.main → f.m_state = State.READY) ∧
      m'.s_fiber_id = (m.s_fiber_id + 1) % UINT64 ∧
      m'.s_fiber_count = (m.s_fiber_count + 1) % UINT64 := by
  cases c with
  | user cb ss ris =>
    obtain ⟨f, h1, h2, h3, h4, h5, h6, _⟩ := ctor_ok (show Fiber.ctor env cb ss ris m = _ from h)
    exact ⟨f, h1, h2, h3, fun _ => h4, h5, h6⟩
  | main =>
    have h1 := Except.ok.inj (show Except.ok (Fiber.ctorMain env m) = _ from h)
    rw [← (Prod.mk.inj h1).1, ← (Prod.mk.inj h1).2]
    exact ⟨_, rfl, rfl, rfl, fun h => absurd rfl h, rfl, rfl⟩

theorem construct_ok_of_malloc (env : Env) (hmalloc : ∀ a n, env.malloc a n ≠ 0)
    (c : Construction) (m : Machine) : ∃ r, construct env c m = .ok r := by
  cases c with
  | user cb ss ris =>
    obtain ⟨m', h⟩ := ctor_ok_of_malloc env cb ss ris m (hmalloc _ _)
    exact ⟨_, h⟩
  | main => exact ⟨_, rfl⟩

theorem constructed_error (env : Env) (c : Construction) (cs : List Construction)
    (m : Machine) (x : Fault × Machine) (h : construct env c m = .error x) :
    constructed env (c :: cs) m = [] := by
  simp only [constructed, h]

theorem constructed_ok (env : Env) (c : Construction) (cs : List Construction)
    {m m' : Machine} {p : Nat} (h : construct env c m = .ok (p, m')) :
    ∃ f, constructed env (c :: cs) m = (c, f) :: constructed env cs m' ∧
      f.m_id = m.s_fiber_id ∧ (c ≠ Construction.main → f.m_state = State.READY) ∧
      m'.s_fiber_id = (m.s_fiber_id + 1) % UINT64 := by
  obtain ⟨f, h1, h2, h3, h4, h5, _⟩ := construct_push h
  have hf : m'.fiber? p = some f := by rw [h2]; exact fiber?_push h1
  exact ⟨f, by simp only [constructed, h, hf], h3, h4, h5⟩

theorem constructed_spec (env : Env) (cs : List Construction) : ∀ m : Machine,
    m.s_fiber_id + cs.length ≤ UINT64 →
    (∃ rest, cs = (constructed env cs m).map Prod.fst ++ rest) ∧
    ((∀ a n, env.malloc a n ≠ 0) → (constructed env cs m).map Prod.fst = cs) ∧
    (∀ x ∈ constructed env cs m, m.s_fiber_id ≤ x.2.m_id) ∧
    (constructed env cs m).Pairwise (fun a b => a.2.m_id < b.2.m_id) ∧
    (∀ x ∈ constructed env cs m, x.1 ≠ Construction.main → x.2.m_state = State.READY) := by
  induction cs with
  | nil => intro m _; simp [constructed]
  | cons c cs ih =>
    intro m hm
    cases hcon : construct env c m with
    | error x =>
      rw [constructed_error env c cs m x hcon]
      refine ⟨⟨c :: cs, rfl⟩, fun hmalloc => ?_, by simp, List.Pairwise.nil, by simp⟩
      obtain ⟨r, hr⟩ := construct_ok_of_malloc env hmalloc c m
      rw [hr] at hcon
      cases hcon
    | ok r =>
      obtain ⟨p, m'⟩ := r
      obtain ⟨f, hc, hid, hst, hnext⟩ := constructed_ok env c cs hcon
      rw [hc]
      cases cs with
      | nil =>
        simp only [constructed, List.map_cons, List.map_nil, List.mem_singleton, forall_eq,
          List.pairwise_cons, List.not_mem_nil, false_implies, implies_true, List.Pairwise.nil,
          and_self, true_and, hid, le_refl]
        exact ⟨⟨[], rfl⟩, hst⟩
      | cons c' cs' =>
        simp only [List.length_cons] at hm
        have hlt : m.s_fiber_id + 1 < UINT64 := by omega
        rw [Nat.mod_eq_of_lt hlt] at hnext
        obtain ⟨⟨rest, i0⟩, i1, i2, i3, i4⟩ := ih m' (by
          rw [hnext]; simp only [List.length_cons]; omega)
        refine ⟨⟨rest, ?_⟩, fun hmalloc => ?_, ?_, ?_, ?_⟩
        · simp only [List.map_cons, List.cons_append]
          rw [← i0]
        · simp [i1 hmalloc]
        · intro x hx
          rcases List.mem_cons.1 hx with h | h
          · subst h; exact le_of_eq hid.symm
          · have := i2 x h; omega
        · refine List.Pairwise.cons ?_ i3
          intro x hx
          have := i2 x hx
          simp only [hid]; omega
        · intro x hx
          rcases List.mem_cons.1 hx with h | h
          · subst h; exact hst
          · exact i4 x h

/-! ## The live-fiber counter -/

/-- C1, evaluated where it fails: on a fresh thread `GetThis()` builds the main fiber M
(address `0`, RUNNING), F is built (address `1`, READY) and M calls `F->resume()`.  The call
succeeds, F is current, and both M and F are in state RUNNING. -/
theorem resume_leaves_caller_RUNNING :
    ∃ m, runN demoEnv 3
        (boot [Instr.getThis, Instr.newFiber (some 0) 0 false, Instr.resume 1]) = .ok m ∧
      m.t_fiber = some 1 ∧ m.stateOf 0 = some State.RUNNING ∧
      m.stateOf 1 = some State.RUNNING ∧ m.running = [0, 1] :=
  ⟨_, rfl, rfl, rfl, rfl, rfl⟩

/-- C2, evaluated where it fails: a fiber is built at address `0` and installed with
`SetSchedulerFiber` before the first `GetThis()`; that call builds the main fiber at address
`1` and stores it in the scheduler slot, so the scheduler fiber is no longer the one
installed. -/
theorem GetThis_overwrites_scheduler_fiber :
    (∃ m, runN demoEnv 2
        (boot [Instr.newFiber (some 0) 0 true, Instr.setSchedulerFiber (some 0), Instr.getThis])
          = .ok m ∧
      m.t_fiber = none ∧ m.t_scheduler_fiber = some 0) ∧
    (∃ m, runN demoEnv 3
        (boot [Instr.newFiber (some 0) 0 true, Instr.setSchedulerFiber (some 0), Instr.getThis])
          = .ok m ∧
      m.t_fiber = some 1 ∧ m.t_thread_fiber = some 1 ∧ m.stateOf 1 = some State.RUNNING ∧
      m.t_scheduler_fiber = some 1 ∧ m.t_scheduler_fiber ≠ some 0) :=
  ⟨⟨_, rfl, rfl, rfl⟩, ⟨_, rfl, rfl, rfl, rfl, rfl, by decide⟩⟩

/-- C3: for every sequence of fewer than 2^64 fiber constructions from process start (user
fibers and main fibers in any order), the fibers built are those of the sequence, in order,
up to the first construction whose stack allocation fails (all of them when `malloc` does not
fail); each fresh user fiber is READY, each fresh fiber's id is strictly greater than the id
of every fiber built before it, and so the ids are pairwise distinct. -/
theorem fresh_fiber_READY_ids_increase (env : Env) (cs : List Construction)
    (h : cs.length < 2 ^ 64) :
    (∃ rest, cs = (constructed env cs (boot [])).map Prod.fst ++ rest) ∧
    ((∀ a n, env.malloc a n ≠ 0) → (constructed env cs (boot [])).map Prod.fst = cs) ∧
    (∀ x ∈ constructed env cs (boot []),
      x.1 ≠ Construction.main → x.2.m_state = State.READY) ∧
    (constructed env cs (boot [])).Pairwise (fun a b => a.2.m_id < b.2.m_id) ∧
    ((constructed env cs (boot [])).map fun x => x.2.m_id).Nodup := by
  obtain ⟨h0, h1, _, h3, h4⟩ := constructed_spec env cs (boot []) (by
    simp only [boot, UINT64]; omega)
  refine ⟨h0, h1, h4, h3, ?_⟩
  rw [List.Nodup, List.pairwise_map]
  exact h3.imp (fun hab => Nat.ne_of_lt hab)

/-- Witness for C3: a user fiber, a main fiber, a user fiber. -/
theorem fresh_fiber_READY_ids_increase_witness :
    (constructed demoEnv [Construction.user (some 0) 0 false, Construction.main,
        Construction.user none 4096 true] (boot [])).map (fun x => (x.2.m_id, x.2.m_state)) =
      [(0, State.READY), (1, State.RUNNING), (2, State.READY)] ∧
    ((constructed demoEnv [Construction.user (some 0) 0 false, Construction.main,
        Construction.user none 4096 true] (boot [])).map fun x => x.2.m_id).Nodup :=
  ⟨by decide, (fresh_fiber_READY_ids_increase demoEnv
    [Construction.user (some 0) 0 false, Construction.main, Construction.user none 4096 true]
    (by simp)).2.2.2.2⟩

/-- C4: on a fiber whose state is not READY (RUNNING or TERM), `resume()` stops at its
assertion in the unchanged state: the fiber and the current-fiber pointer are as before;
a `resume()` that returns was called on a READY fiber. -/
theorem resume_only_from_READY (env : Env) (m : Machine) (p : Nat) (f : Fiber)
    (hf : m.fiber? p = some f) :
    (f.m_state ≠ State.READY →
      Fiber.resume env p m = .error (Fault.assertion, m) ∧
      (Fiber.resume env p m).final.fiber? p = some f ∧
      (Fiber.resume env p m).final.t_fiber = m.t_fiber) ∧
    (∀ m', Fiber.resume env p m = .ok m' → f.m_state = State.READY) := by
  constructor
  · intro hs
    have h : Fiber.resume env p m = .error (Fault.assertion, m) := by
      simp [Fiber.resume, hf, hs]
    simp [h, Exec.final, hf]
  · intro m' h
    by_contra hs
    simp [Fiber.resume, hf, hs] at h

/-- Witness for C4: resuming the RUNNING fiber F. -/
theorem resume_only_from_READY_witness :
    demoRunning.stateOf 0 = some State.RUNNING ∧
    Fiber.resume demoEnv 0 demoRunning = .error (Fault.assertion, demoRunning) :=
  ⟨rfl, ((resume_only_from_READY demoEnv demoRunning 0 _ rfl).1 (by decide)).1⟩

/-- C6: `reset(cb)` on a TERM fiber whose stack is allocated returns with the fiber READY,
its entry `cb`, its context rebuilt on the same stack with the same size, and id, stack, stack
size, run_in_scheduler, the id counter and the live-fiber counter as before; on a fiber that
is not TERM it stops at its assertion in the unchanged state. -/
theorem reset_from_TERM (m : Machine) (p : Nat) (f : Fiber) (cb : Callable)
    (hf : m.fiber? p = some f) :
    (f.m_state = State.TERM → f.m_stack ≠ 0 →
      ∃ m' g, Fiber.reset p cb m = .ok m' ∧ m'.fiber? p = some g ∧
        g.m_state = State.READY ∧ g.m_cb = cb ∧ g.m_ctx = Ctx.made f.m_stack f.m_stacksize ∧
        g.m_id = f.m_id ∧ g.m_stack = f.m_stack ∧ g.m_stacksize = f.m_stacksize ∧
        g.m_runInScheduler = f.m_runInScheduler ∧
        m'.s_fiber_id = m.s_fiber_id ∧ m'.s_fiber_count = m.s_fiber_count ∧
        m'.heap.length = m.heap.length ∧
        (∀ a, a ≠ p → m'.fiber? a = m.fiber? a)) ∧
    (f.m_state ≠ State.TERM → Fiber.reset p cb m = .error (Fault.assertion, m)) := by
  constructor
  · intro hs hk
    refine ⟨m.setFiber p { f with m_state := State.READY, m_cb := cb,
                                  m_ctx := Ctx.made f.m_stack f.m_stacksize },
      { f with m_state := State.READY, m_cb := cb, m_ctx := Ctx.made f.m_stack f.m_stacksize },
      by simp [Fiber.reset, hf, hs, hk],
      fiber?_setFiber_self _ (fiber?_lt hf), rfl, rfl, rfl, rfl, rfl, rfl, rfl, rfl, rfl, ?_, ?_⟩
    · simp [Machine.setFiber]
    · intro a ha
      exact fiber?_setFiber_of_ne _ (Ne.symm ha)
  · intro hs
    simp [Fiber.reset, hf, hs]

/-- Witness for C6: the TERM fiber F is reset with callable `0`. -/
theorem reset_from_TERM_witness :
    demoTerminated.stateOf 0 = some State.TERM ∧
    ∃ m' g, Fiber.reset 0 (some 0) demoTerminated = .ok m' ∧ m'.fiber? 0 = some g ∧
      g.m_state = State.READY ∧ g.m_cb = some 0 ∧ g.m_id = 0 :=
  ⟨rfl, by
    obtain ⟨m', g, h1, h2, h3, h4, _, h6, _⟩ :=
      (reset_from_TERM demoTerminated 0 _ (some 0) rfl).1 rfl (by decide)
    exact ⟨m', g, h1, h2, h3, h4, h6⟩⟩

/-- C7, as stated, fails: F is built with `run_in_scheduler = false`, the entry
`{ GetThis()->yield(); }` and a stack of one byte.  F is READY and the main fiber is RUNNING
and current, but the first `F->resume()` enters `MainFunc` on a stack that cannot hold it and
the thread stops there; F never yields. -/
theorem scenario_faults_on_one_byte_stack :
    (∃ m, runN demoEnv 2 (boot (scenarioMain 0 1)) = .ok m ∧
      m.stateOf 0 = some State.READY ∧ m.stateOf 1 = some State.RUNNING ∧
      m.t_fiber = some 1 ∧
      (m.fiber? 0).map (fun g => (g.m_stacksize, g.m_runInScheduler, g.m_cb)) =
        some (1, false, some 0)) ∧
    (∃ m', runN demoEnv 3 (boot (scenarioMain 0 1)) = .error (Fault.stackOverflow, m')) :=
  ⟨⟨_, rfl, rfl, rfl, rfl, rfl⟩, _, rfl⟩

/-- C7, amended: on a fresh thread, for a fiber F built with `run_in_scheduler = false`, the
entry `{ GetThis()->yield(); }` and a stack that was allocated and is large enough for
`MainFunc` with that entry: `GetThis()` builds the main fiber M in state RUNNING and makes it
current; the first `F->resume()` returns control inside F with F RUNNING and current; the
`yield()` of the entry leaves F READY, makes M current and continues after the first
`resume()`; the second `F->resume()` makes F RUNNING and current and continues after that
`yield()`; when the entry returns, MainFunc leaves F in TERM, its final `yield()` makes M
current and the thread continues after the second `resume()`.  No step faults. -/
theorem scenario_yield_once (env : Env) (c stacksize : Nat)
    (hcode : env.code c = [Instr.yieldThis])
    (hstack : env.malloc 0 (if stacksize ≠ 0 then stacksize else 128000) ≠ 0)
    (hneed : env.stackNeed (some c) ≤ (if stacksize ≠ 0 then stacksize else 128000)) :
    (∃ m, runN env 2 (boot (scenarioMain c stacksize)) = .ok m ∧
      m.stateOf 0 = some State.READY ∧ m.stateOf 1 = some State.RUNNING ∧
      m.t_fiber = some 1 ∧ m.t_thread_fiber = some 1 ∧
      m.pc = [Instr.resume 0, Instr.resume 0]) ∧
    (∃ m, runN env 3 (boot (scenarioMain c stacksize)) = .ok m ∧
      m.stateOf 0 = some State.RUNNING ∧ m.t_fiber = some 0 ∧ m.pc = [Instr.mainFunc]) ∧
    (∃ m, runN env 4 (boot (scenarioMain c stacksize)) = .ok m ∧
      m.stateOf 0 = some State.RUNNING ∧ m.t_fiber = some 0 ∧
      m.pc = [Instr.yieldThis, Instr.mainFuncTail 0]) ∧
    (∃ m, runN env 5 (boot (scenarioMain c stacksize)) = .ok m ∧
      m.stateOf 0 = some State.READY ∧ m.t_fiber = some 1 ∧ m.pc = [Instr.resume 0]) ∧
    (∃ m, runN env 6 (boot (scenarioMain c stacksize)) = .ok m ∧
      m.stateOf 0 = some State.RUNNING ∧ m.t_fiber = some 0 ∧
      m.pc = [Instr.mainFuncTail 0]) ∧
    (∃ m, runN env 7 (boot (scenarioMain c stacksize)) = .ok m ∧
      m.stateOf 0 = some State.TERM ∧ m.t_fiber = some 1 ∧ m.pc = []) := by
  have hs := hstack
  have hn := Nat.not_lt.mpr hneed
  simp only [ne_eq, ite_not] at hs hn
  refine ⟨?_, ?_, ?_, ?_, ?_, ?_⟩ <;>
    simp [runN, step, boot, scenarioMain, exec, Fiber.ctor, Fiber.ctorMain, Fiber.GetThis,
      Fiber.resume, Fiber.yield, Fiber.MainFunc, Fiber.MainFuncTail, Fiber.SetThis, swapcontext,
      Machine.fiber?, Machine.setFiber, Machine.stateOf, hcode, hs, hn]

/-- Witness for C7 in the example environment, with the default stack size. -/
theorem scenario_yield_once_witness :
    demoEnv.code 0 = [Instr.yieldThis] ∧ demoEnv.malloc 0 128000 ≠ 0 ∧
    demoEnv.stackNeed (some 0) ≤ 128000 ∧
    (∃ m, runN demoEnv 7 (boot (scenarioMain 0 0)) = .ok m ∧
      m.stateOf 0 = some State.TERM ∧ m.t_fiber = some 1 ∧ m.pc = []) :=
  ⟨rfl, by decide, by decide,
    (scenario_yield_once demoEnv 0 0 rfl (by decide) (by decide)).2.2.2.2.2⟩

/-- C8: in every state a thread reaches from start-up, whatever its code and its entry
callables do (constructions, resume, yield, MainFunc, reset, and also destruction and the
registry calls), a live fiber whose state is TERM holds the empty entry callable. -/
theorem TERM_fiber_holds_no_entry (env : Env) (main : List Instr) (n : Nat) (m : Machine)
    (a : Nat) (f : Fiber) (hrun : runN env n (boot main) = .ok m)
    (hf : m.fiber? a = some f) (hs : f.m_state = State.TERM) : f.m_cb = none :=
  allFibers_fiber? (runN_termHasNoEntry env n (m := boot main)
    (by intro g hg; simp [boot] at hg) hrun) hf hs

/-- Witness for C8: F after its entry has returned. -/
theorem TERM_fiber_holds_no_entry_witness :
    runN demoEnv 7 (boot (scenarioMain 0 0)) = .ok demoTerminated ∧
    ∃ f, demoTerminated.fiber? 0 = some f ∧ f.m_state = State.TERM ∧ f.m_cb = none :=
  ⟨rfl, _, rfl, rfl,
    TERM_fiber_holds_no_entry demoEnv (scenarioMain 0 0) 7 demoTerminated 0 _ rfl rfl rfl⟩

/-- C10, as stated, fails: on this thread `GetThis()` is called (by MainFunc of F and by the
entry of F) and `SetSchedulerFiber` is only ever given the fiber G, yet after seven steps the
main-fiber slot is still null, and `resume()` on the READY fiber at address `2`
(`run_in_scheduler = false`) stops at the null counterpart. -/
theorem getThis_called_but_main_slot_null :
    trace demoEnv 8 (boot lateBootstrapMain) =
      [Instr.newFiber (some 1) 0 true, Instr.newFiber none 0 true,
       Instr.setSchedulerFiber (some 1), Instr.resume 0, Instr.mainFunc, Instr.getThis,
       Instr.newFiber none 0 false, Instr.resume 2] ∧
    (∃ m, runN demoEnv 7 (boot lateBootstrapMain) = .ok m ∧
      m.t_fiber = some 0 ∧ m.t_thread_fiber = none ∧ m.t_scheduler_fiber = some 1 ∧
      m.stateOf 2 = some State.READY ∧
      ∃ m', Fiber.resume demoEnv 2 m = .error (Fault.nullDeref, m')) ∧
    (∃ m', runN demoEnv 8 (boot lateBootstrapMain) = .error (Fault.nullDeref, m')) :=
  ⟨rfl, ⟨_, rfl, rfl, rfl, rfl, rfl, _, rfl⟩, _, rfl⟩

/-- C10, amended: when `GetThis()` is called on a thread with no current fiber registered it
returns the main fiber it has just built, and in every state the thread reaches from there
without handing a null fiber to `SetSchedulerFiber`, the main-fiber slot and the
scheduler-fiber slot are non-null, so neither `resume()` nor `yield()` stops at a null
counterpart; and on a fresh thread that has not made that call, `resume()` on a newly built
(READY) fiber, its stack allocated, does stop at the null counterpart. -/
theorem counterparts_set_after_bootstrap (env : Env) (m0 : Machine)
    (h0 : m0.t_fiber = none) :
    (∃ a m1, Fiber.GetThis env m0 = .ok (some a, m1) ∧
      ∀ n m, runN env n m1 = .ok m → Instr.setSchedulerFiber none ∉ trace env n m1 →
        m.t_thread_fiber ≠ none ∧ m.t_scheduler_fiber ≠ none ∧
        (∀ p m', Fiber.resume env p m ≠ .error (Fault.nullDeref, m')) ∧
        (∀ p m', Fiber.yield env p m ≠ .error (Fault.nullDeref, m'))) ∧
    (∀ cb stacksize ris, env.malloc 0 (if stacksize ≠ 0 then stacksize else 128000) ≠ 0 →
      ∃ m', runN env 2 (boot [Instr.newFiber cb stacksize ris, Instr.resume 0]) =
        .error (Fault.nullDeref, m')) := by
  constructor
  · obtain ⟨a, m1, hg, _, h2, h3, _⟩ := GetThis_bootstrap env m0 h0
    refine ⟨a, m1, hg, fun n m hrun hnn => ?_⟩
    have hset : m.counterpartsSet :=
      runN_counterpartsSet env n (m := m1)
        ⟨by rw [h2]; exact Option.some_ne_none _, by rw [h3]; exact Option.some_ne_none _⟩
        hrun hnn
    exact ⟨hset.1, hset.2, fun p m' => resume_no_nullDeref env p hset m',
      fun p m' => yield_no_nullDeref env p hset m'⟩
  · intro cb stacksize ris hstack
    have hs := hstack
    simp only [ne_eq, ite_not] at hs
    cases ris <;>
      simp [runN, step, boot, exec, Fiber.ctor, Fiber.resume, Fiber.SetThis, swapcontext,
        Machine.fiber?, Machine.setFiber, hs]

/-- Witness for C10: a thread at start-up has no current fiber. -/
theorem counterparts_set_after_bootstrap_witness :
    (boot [Instr.newFiber none 0 false, Instr.resume 1]).t_fiber = none ∧
    ∃ a m1, Fiber.GetThis demoEnv (boot [Instr.newFiber none 0 false, Instr.resume 1]) =
        .ok (some a, m1) ∧
      ∀ n m, runN demoEnv n m1 = .ok m → Instr.setSchedulerFiber none ∉ trace demoEnv n m1 →
        m.t_thread_fiber ≠ none ∧ m.t_scheduler_fiber ≠ none ∧
        (∀ p m', Fiber.resume demoEnv p m ≠ .error (Fault.nullDeref, m')) ∧
        (∀ p m', Fiber.yield demoEnv p m ≠ .error (Fault.nullDeref, m')) :=
  ⟨rfl, (counterparts_set_after_bootstrap demoEnv _ rfl).1⟩

end sylar
